import Mathlib

/-!
Verification of the position-tracking and slicing subsystem of vscode-flowr.

The definitions below are a shallow embedding of the TypeScript source:
* `shiftOffset`, `shiftThroughChanges`, `onDocChangeOffsets` embed
  `shiftOffset` and `PositionSlicer.onDocChange` (src/extension.ts);
* `toggleLoop`, `togglePositions` embed `PositionSlicer.togglePositions`;
* `updateSlicesRun`, `updateOutputRun`, `applyResponse`, `applyArrivals`
  embed `PositionSlicer.updateSlices` / `updateOutput` and the way their
  continuations run at response-arrival time;
* `addPositions`, `docSlicersOnChange` embed the `docSlicers` registry
  manipulation in `addPositions` and the per-document change listener;
* `destroySession`, `establishInternalSession`, `establishServerSession`
  embed the session registry of extension.ts.

External collaborators are parameters: `norm : Int → Int` stands for
`PositionSlicer.normalizeOffset` (offset → start of containing token via
the editor's word-boundary lookup, `-1` on failure), and
`retrieve : List Int → SliceResponse` stands for
`session.retrieveSlice` on the current document snapshot.
-/

namespace VscodeFlowr

/-- One `vscode.TextDocumentContentChangeEvent`: a contiguous replacement.
`rangeOffset` is the start offset, `rangeLength` the replaced length, and
`textLength` the length of the inserted text (`cc.text.length`). -/
structure ContentChange where
  rangeOffset : Int
  rangeLength : Int
  textLength : Int
deriving DecidableEq, Repr

/-- Embedding of `shiftOffset(offset, cc)` (src/extension.ts):
```
if(cc.rangeOffset > offset){ return offset }
if(cc.rangeLength + cc.rangeOffset > offset){ return undefined }
const offsetDelta = cc.text.length - cc.rangeLength
return offset + offsetDelta
```
`none` models the `undefined` invalidation signal. -/
def shiftOffset (offset : Int) (cc : ContentChange) : Option Int :=
  if cc.rangeOffset > offset then
    some offset
  else if cc.rangeLength + cc.rangeOffset > offset then
    none
  else
    some (offset + (cc.textLength - cc.rangeLength))

/-- Embedding of the inner loop of `PositionSlicer.onDocChange`:
```
for(const cc of e.contentChanges) {
  const offset1 = shiftOffset(offset, cc)
  if(!offset1){ offset = -1; break } else { offset = offset1 }
}
```
In JavaScript `!offset1` is `true` both when `offset1` is `undefined`
and when it is `0`, so a remapped offset of `0` is also turned into `-1`
and the remaining changes are skipped; the embedding reproduces that. -/
def shiftThroughChanges (offset : Int) : List ContentChange → Int
  | [] => offset
  | cc :: rest =>
    match shiftOffset offset cc with
    | none => -1
    | some v => if v = 0 then -1 else shiftThroughChanges v rest

/-- Embedding of the offset-remapping part of `PositionSlicer.onDocChange`:
each tracked offset is piped through all content changes, re-normalized
(`offset = this.normalizeOffset(offset)`), and pushed onto `newOffsets`
when `offset >= 0`. -/
def onDocChangeOffsets (norm : Int → Int) (offsets : List Int)
    (changes : List ContentChange) : List Int :=
  (offsets.map (fun o => norm (shiftThroughChanges o changes))).filter
    (fun o => 0 ≤ o)

/-- Embedding of the `for(const offset of offsets)` loop of
`PositionSlicer.togglePositions`: offsets not yet in `this.offsets` are
pushed and clear the `onlyRemove` flag. -/
def toggleLoop : List Int → List Int → Bool → List Int × Bool
  | [], tracked, onlyRemove => (tracked, onlyRemove)
  | o :: rest, tracked, onlyRemove =>
    if o ∈ tracked then
      toggleLoop rest tracked onlyRemove
    else
      toggleLoop rest (tracked ++ [o]) false

/-- The first two lines of `PositionSlicer.togglePositions`:
`positions.map(pos => this.normalizeOffset(pos)).filter(i => i >= 0)`.
Raw positions are modelled as the integers fed to `normalizeOffset`
(the parameter `norm`). -/
def normOffsets (norm : Int → Int) (positions : List Int) : List Int :=
  (positions.map norm).filter (fun i => 0 ≤ i)

/-- Embedding of `PositionSlicer.togglePositions(positions)`: the
source maps the positions to normalized offsets, filters out the
failures, returns `false` on an empty result, otherwise pushes
untracked offsets and, when every offset was already tracked, filters
all of them out of `this.offsets`. The first component is the new
`this.offsets`, the second the returned boolean. -/
def togglePositions (norm : Int → Int) (tracked : List Int)
    (positions : List Int) : List Int × Bool :=
  let offsets := normOffsets norm positions
  if offsets.length = 0 then
    (tracked, false)
  else
    let r := toggleLoop offsets tracked true
    if r.2 then
      (r.1.filter (fun o => o ∉ offsets), true)
    else
      (r.1, true)

/-! ### Slice requests, responses and rendering -/

/-- The result of `session.retrieveSlice(positions, doc)`: the
reconstructed `code` and the `sliceElements` (only identity and count
matter here, so elements are modelled as naturals). -/
structure SliceResponse where
  code : String
  sliceElements : List Nat
deriving DecidableEq, Repr

/-- The presentation state a `PositionSlicer` drives: the slice
decorations currently applied (`none` after `clearSliceDecos`) and the
content last passed to `provider.updateContents` for the slicer's uri. -/
structure SlicerView where
  sliceDecos : Option (List Nat)
  content : Option String
deriving DecidableEq, Repr

/-- JavaScript `code || defaultText` on a `string | undefined` value:
the default is used when `code` is `undefined` or the empty string. -/
def jsOrDefault (s : Option String) (d : String) : String :=
  match s with
  | none => d
  | some str => if str = "" then d else str

/-- Embedding of `PositionSlicer.updateSlices`. `retrieve` stands for
`session.retrieveSlice` on the current document snapshot. Returns the
new slice-decoration state, the returned code (`none` for the
`return undefined` paths), and whether a request was sent to the
backend. An empty position set clears the decorations and sends no
request; a response whose `sliceElements` is empty clears the
decorations; otherwise the elements are displayed and the code
returned. -/
def updateSlicesRun (retrieve : List Int → SliceResponse)
    (offsets : List Int) : Option (List Nat) × Option String × Bool :=
  if offsets.length = 0 then
    (none, none, false)
  else
    let resp := retrieve offsets
    if resp.sliceElements.length = 0 then
      (none, none, true)
    else
      (some resp.sliceElements, some resp.code, true)

/-- Embedding of `PositionSlicer.updateOutput`: runs `updateSlices`,
replaces a missing or empty code with the fallback text, and updates the
provider content. Second component: whether a slice request was sent. -/
def updateOutputRun (retrieve : List Int → SliceResponse)
    (offsets : List Int) : SlicerView × Bool :=
  let r := updateSlicesRun retrieve offsets
  (⟨r.1, some (jsOrDefault r.2.1 "# No slice")⟩, r.2.2)

/-- The continuation of one in-flight `updateOutput` call after its
`await session.retrieveSlice(...)` resolves (src `updateSlices` /
`updateOutput`): the response's elements are checked — an empty set
clears the decorations — and the provider content is set from the
response's code. The source performs no sequence-number or staleness
check, so the response is applied unconditionally. -/
def applyResponse (_view : SlicerView) (resp : SliceResponse) : SlicerView :=
  if resp.sliceElements.length = 0 then
    ⟨none, some "# No slice"⟩
  else
    ⟨some resp.sliceElements, some (jsOrDefault (some resp.code) "# No slice")⟩

/-- Overlapping slice requests resolve on the single-threaded event
loop in response-arrival order; each continuation applies its own
response via `applyResponse`. `arrivals` lists the responses in the
order they arrive. -/
def applyArrivals (view : SlicerView) (arrivals : List SliceResponse) :
    SlicerView :=
  arrivals.foldl applyResponse view

/-! ### The docSlicers registry -/

/-- The process-wide `docSlicers : Map<TextDocument, PositionSlicer>`,
modelled as an association list from a document identity to the
slicer's `offsets` field (the only slicer state the claims need). -/
abbrev DocSlicers := List (Nat × List Int)

/-- `docSlicers.get(doc)` as an offsets lookup. -/
def lookupSlicer : DocSlicers → Nat → Option (List Int)
  | [], _ => none
  | (d, offs) :: rest, doc => if d = doc then some offs else lookupSlicer rest doc

/-- `docSlicers.delete(doc)`: removes the entries keyed by `doc`
(a map holds at most one). -/
def eraseSlicer : DocSlicers → Nat → DocSlicers
  | [], _ => []
  | (d, offs) :: rest, doc =>
    if d = doc then eraseSlicer rest doc else (d, offs) :: eraseSlicer rest doc

/-- `docSlicers.set(doc, slicer)`: a map can hold at most one slicer per
document, so the entry replaces any previous one. -/
def setSlicer (m : DocSlicers) (doc : Nat) (offs : List Int) : DocSlicers :=
  (doc, offs) :: eraseSlicer m doc

/-- Embedding of `addPositions(positions, doc)` (registry effect only):
gets or creates the slicer (a fresh slicer has `offsets = []`), stores
it in the map if absent, toggles the positions (mutating the slicer's
offsets, which the map entry reflects), and, if the offsets are now
empty, disposes the slicer and deletes it from the map. -/
def addPositions (norm : Int → Int) (m : DocSlicers) (doc : Nat)
    (positions : List Int) : DocSlicers :=
  let offsets0 := (lookupSlicer m doc).getD []
  let m1 := if (lookupSlicer m doc).isSome then m else setSlicer m doc offsets0
  let r := togglePositions norm offsets0 positions
  let m2 := setSlicer m1 doc r.1
  if r.1.length = 0 then eraseSlicer m2 doc else m2

/-- A `vscode.TextDocumentChangeEvent`: the identity of the changed
document and its content changes. -/
structure DocChangeEvent where
  docId : Nat
  contentChanges : List ContentChange
deriving DecidableEq, Repr

/-- Registry-level effect of one document-change notification: every
registered slicer runs `onDocChange`, which returns early unless the
event concerns its own document and has content changes, and otherwise
replaces its offsets by the remapped ones. No slicer is removed from
the map by this handler. -/
def docSlicersOnChange (norm : Int → Int) (m : DocSlicers)
    (e : DocChangeEvent) : DocSlicers :=
  m.map (fun p =>
    if p.1 = e.docId ∧ e.contentChanges ≠ [] then
      (p.1, onDocChangeOffsets norm p.2 e.contentChanges)
    else
      p)

/-- Embedding of `PositionSlicer.onDocChange(e)` for one slicer with
document `selfDoc`, tracked `offsets` and presentation state `view`:
events for another document or without content changes return before
touching any state; otherwise the offsets are remapped and
`updateOutput` runs. The final component tells whether a slice request
was sent to the backend. -/
def onDocChange (norm : Int → Int) (retrieve : List Int → SliceResponse)
    (selfDoc : Nat) (offsets : List Int) (view : SlicerView)
    (e : DocChangeEvent) : List Int × SlicerView × Bool :=
  if e.docId ≠ selfDoc then
    (offsets, view, false)
  else if e.contentChanges.length = 0 then
    (offsets, view, false)
  else
    let newOffsets := onDocChangeOffsets norm offsets e.contentChanges
    let r := updateOutputRun retrieve newOffsets
    (newOffsets, r.1, r.2)

/-! ### The flowr session registry -/

/-- The two session classes of the extension. -/
inductive SessionKind where
  | internal
  | server
deriving DecidableEq, Repr

/-- The module-level session state of extension.ts: `flowrSession`
(identified by a creation counter plus its kind, `none` when unset),
the counter used to give fresh identities to newly constructed
sessions, and the list of session identities on which `.destroy()` has
been invoked (most recent first). -/
structure FlowrSessionState where
  flowrSession : Option (Nat × SessionKind)
  nextId : Nat
  destroyCalls : List Nat
deriving DecidableEq, Repr

/-- Embedding of `destroySession()`:
`flowrSession?.destroy(); flowrSession = undefined` — `destroy` is
invoked only when a session is present (optional chaining), and the
reference is cleared afterwards. -/
def destroySession (s : FlowrSessionState) : FlowrSessionState :=
  match s.flowrSession with
  | none => { s with flowrSession := none }
  | some (id, _) =>
    { flowrSession := none
      nextId := s.nextId
      destroyCalls := id :: s.destroyCalls }

/-- Embedding of `establishInternalSession()`: destroy the current
session, then create and store a fresh `FlowrInternalSession`. -/
def establishInternalSession (s : FlowrSessionState) : FlowrSessionState :=
  let s1 := destroySession s
  { flowrSession := some (s1.nextId, SessionKind.internal)
    nextId := s1.nextId + 1
    destroyCalls := s1.destroyCalls }

/-- Embedding of `establishServerSession()`: destroy the current
session, then create and store a fresh `FlowrServerSession`. -/
def establishServerSession (s : FlowrSessionState) : FlowrSessionState :=
  let s1 := destroySession s
  { flowrSession := some (s1.nextId, SessionKind.server)
    nextId := s1.nextId + 1
    destroyCalls := s1.destroyCalls }

/-! ### Concrete normalizers used in counterexamples

`normalizeOffset` converts an offset to a position (the editor clamps
offsets into the document), looks up the containing token via the word
boundary lookup, and returns the token's start offset, `-1` when there
is no containing token. The functions below are its behavior on
concrete documents. -/

/-- `normalizeOffset` for a document whose text, after applying the two
changes `delete [0,10)` then `insert " x<- " at 0`, is `" x<- ab"`: the
only token relevant to the scenario is `ab`, starting at offset `5`;
offset `0` holds a space, so normalization fails there (and hence also
on any negative offset, which the editor clamps to `0`). -/
def normC3 : Int → Int := fun o => if o = 5 then 5 else -1

/-- `normalizeOffset` for the document `"x abcd"` obtained from
`"x ab cd"` by deleting the space at offset 4: offsets 2..5 lie in the
token `abcd` starting at offset 2, offsets 0 and 1 touch the token `x`
at offset 0, and anything else fails. -/
def normC6 : Int → Int := fun o =>
  if 2 ≤ o ∧ o ≤ 5 then 2 else if 0 ≤ o ∧ o ≤ 1 then 0 else -1

/-- `normalizeOffset` for a document whose text was deleted entirely:
no offset lies in a token, so normalization always fails. -/
def normC7 : Int → Int := fun _ => -1

/-! ### Helper lemmas about toggleLoop -/

theorem toggleLoop_mem (offs : List Int) (tracked : List Int) (b : Bool)
    (x : Int) :
    x ∈ (toggleLoop offs tracked b).1 ↔ x ∈ tracked ∨ x ∈ offs := by
  induction offs generalizing tracked b with
  | nil => simp [toggleLoop]
  | cons o rest ih =>
    simp only [toggleLoop]
    by_cases h : o ∈ tracked
    · simp only [if_pos h, ih]
      constructor
      · rintro (hx | hx)
        · exact Or.inl hx
        · exact Or.inr (List.mem_cons_of_mem _ hx)
      · rintro (hx | hx)
        · exact Or.inl hx
        · rcases List.mem_cons.mp hx with rfl | hx
          · exact Or.inl h
          · exact Or.inr hx
    · simp only [if_neg h, ih, List.mem_append, List.mem_singleton,
        List.mem_cons]
      tauto

theorem toggleLoop_flag_false (offs : List Int) (tracked : List Int) :
    (toggleLoop offs tracked false).2 = false := by
  induction offs generalizing tracked with
  | nil => simp [toggleLoop]
  | cons o rest ih =>
    simp only [toggleLoop]
    by_cases h : o ∈ tracked
    · simp [if_pos h, ih]
    · simp [if_neg h, ih]

theorem toggleLoop_all_mem (offs : List Int) (tracked : List Int) (b : Bool)
    (h : ∀ o ∈ offs, o ∈ tracked) :
    toggleLoop offs tracked b = (tracked, b) := by
  induction offs with
  | nil => simp [toggleLoop]
  | cons o rest ih =>
    have ho : o ∈ tracked := h o (List.mem_cons_self o rest)
    simp only [toggleLoop, if_pos ho]
    exact ih (fun o' ho' => h o' (List.mem_cons_of_mem _ ho'))

theorem toggleLoop_flag_true_iff (offs : List Int) (tracked : List Int) :
    (toggleLoop offs tracked true).2 = true ↔ ∀ o ∈ offs, o ∈ tracked := by
  induction offs generalizing tracked with
  | nil => simp [toggleLoop]
  | cons o rest ih =>
    simp only [toggleLoop]
    by_cases h : o ∈ tracked
    · simp only [if_pos h, ih]
      constructor
      · intro hall o' ho'
        rcases List.mem_cons.mp ho' with rfl | ho'
        · exact h
        · exact hall o' ho'
      · intro hall o' ho'
        exact hall o' (List.mem_cons_of_mem _ ho')
    · simp only [if_neg h, toggleLoop_flag_false]
      constructor
      · intro hfalse
        exact absurd hfalse (by simp)
      · intro hall
        exact absurd (hall o (List.mem_cons_self o rest)) h

theorem toggleLoop_nodup (offs : List Int) (tracked : List Int) (b : Bool)
    (h : tracked.Nodup) : (toggleLoop offs tracked b).1.Nodup := by
  induction offs generalizing tracked b with
  | nil => simpa [toggleLoop] using h
  | cons o rest ih =>
    simp only [toggleLoop]
    by_cases ho : o ∈ tracked
    · simp only [if_pos ho]
      exact ih tracked b h
    · simp only [if_neg ho]
      refine ih (tracked ++ [o]) false ?_
      simp [List.nodup_append, h, ho]

/-! ### Characterizations of togglePositions -/

theorem togglePositions_eq_empty (norm : Int → Int) (tracked positions : List Int)
    (he : normOffsets norm positions = []) :
    togglePositions norm tracked positions = (tracked, false) := by
  simp [togglePositions, he]

theorem togglePositions_eq_all (norm : Int → Int) (tracked positions : List Int)
    (hne : normOffsets norm positions ≠ [])
    (hall : ∀ o ∈ normOffsets norm positions, o ∈ tracked) :
    togglePositions norm tracked positions =
      (tracked.filter (fun o => o ∉ normOffsets norm positions), true) := by
  have hlen : ¬ (normOffsets norm positions).length = 0 := by
    simpa [List.length_eq_zero] using hne
  have hloop := toggleLoop_all_mem (normOffsets norm positions) tracked true hall
  simp [togglePositions, hlen, hloop]

theorem togglePositions_eq_notall (norm : Int → Int) (tracked positions : List Int)
    (hnall : ¬ ∀ o ∈ normOffsets norm positions, o ∈ tracked) :
    togglePositions norm tracked positions =
      ((toggleLoop (normOffsets norm positions) tracked true).1, true) := by
  have hne : ¬ (normOffsets norm positions).length = 0 := by
    intro h
    apply hnall
    intro o ho
    rw [List.length_eq_zero] at h
    rw [h] at ho
    exact absurd ho (List.not_mem_nil o)
  have hflag : (toggleLoop (normOffsets norm positions) tracked true).2 = false := by
    rcases Bool.eq_false_or_eq_true
        (toggleLoop (normOffsets norm positions) tracked true).2 with h | h
    · exact absurd ((toggleLoop_flag_true_iff _ _).mp h) hnall
    · exact h
  simp [togglePositions, hne, hflag]

/-! ### Helper lemmas about the docSlicers registry -/

theorem lookupSlicer_erase (m : DocSlicers) (d d' : Nat) :
    lookupSlicer (eraseSlicer m d) d'
      = if d' = d then none else lookupSlicer m d' := by
  induction m with
  | nil => simp [eraseSlicer, lookupSlicer]
  | cons p rest ih =>
    obtain ⟨pd, poffs⟩ := p
    by_cases hpd : pd = d
    · subst hpd
      by_cases hd' : d' = pd
      · subst hd'
        simp [eraseSlicer, lookupSlicer, ih]
      · have hne : ¬ pd = d' := fun h => hd' h.symm
        simp [eraseSlicer, lookupSlicer, ih, hd', hne]
    · by_cases hd' : d' = d
      · subst hd'
        have hne : ¬ pd = d' := hpd
        simp [eraseSlicer, lookupSlicer, ih, hpd, hne]
      · simp [eraseSlicer, lookupSlicer, ih, hpd, hd']

theorem lookupSlicer_set (m : DocSlicers) (d : Nat) (offs : List Int)
    (d' : Nat) :
    lookupSlicer (setSlicer m d offs) d'
      = if d' = d then some offs else lookupSlicer m d' := by
  simp only [setSlicer, lookupSlicer]
  by_cases h : d = d'
  · subst h
    simp [lookupSlicer_erase]
  · have h' : ¬ d' = d := fun hh => h hh.symm
    simp [h, h', lookupSlicer_erase]

theorem addPositions_lookup (norm : Int → Int) (m : DocSlicers) (doc : Nat)
    (positions : List Int) (d : Nat) :
    lookupSlicer (addPositions norm m doc positions) d
      = if d = doc then
          (if (togglePositions norm ((lookupSlicer m doc).getD [])
                positions).1.length = 0
           then none
           else some (togglePositions norm ((lookupSlicer m doc).getD [])
                positions).1)
        else lookupSlicer m d := by
  simp only [addPositions]
  by_cases hr : (togglePositions norm ((lookupSlicer m doc).getD [])
      positions).1.length = 0
  · simp only [hr, if_pos, if_true]
    rw [lookupSlicer_erase]
    by_cases hd : d = doc
    · simp [hd]
    · rw [if_neg hd, if_neg hd, lookupSlicer_set, if_neg hd]
      by_cases hs : (lookupSlicer m doc).isSome
      · simp [hs]
      · simp only [hs, if_false, Bool.false_eq_true]
        rw [lookupSlicer_set, if_neg hd]
  · simp only [hr, if_false]
    rw [lookupSlicer_set]
    by_cases hd : d = doc
    · simp [hd, hr]
    · rw [if_neg hd, if_neg hd]
      by_cases hs : (lookupSlicer m doc).isSome
      · simp [hs]
      · simp only [hs, if_false, Bool.false_eq_true]
        rw [lookupSlicer_set, if_neg hd]

/-! ### Claim theorems -/

/-- C2: for every offset and every single edit, `shiftOffset` returns
the offset unchanged if the edit's start is strictly greater than the
offset; the invalidation signal if the offset lies within
`[start, start + replacedLength)` (which includes an offset exactly at
the start of a non-empty replaced range); and otherwise — the offset at
or after the end of the replaced range, including exactly at
`start + replacedLength` — the offset plus
`replacementTextLength - replacedLength`, never invalidation. -/
theorem c2_shiftOffset_cases (offset : Int) (cc : ContentChange)
    (hlen : 0 ≤ cc.rangeLength) :
    (cc.rangeOffset > offset → shiftOffset offset cc = some offset) ∧
    (cc.rangeOffset ≤ offset ∧ offset < cc.rangeOffset + cc.rangeLength →
      shiftOffset offset cc = none) ∧
    (cc.rangeOffset + cc.rangeLength ≤ offset →
      shiftOffset offset cc =
        some (offset + (cc.textLength - cc.rangeLength)) ∧
      shiftOffset offset cc ≠ none) := by
  refine ⟨?_, ?_, ?_⟩
  · intro h
    simp [shiftOffset, h]
  · intro h
    have h1 : ¬ cc.rangeOffset > offset := by omega
    have h2 : cc.rangeLength + cc.rangeOffset > offset := by omega
    simp [shiftOffset, h1, h2]
  · intro h
    have h1 : ¬ cc.rangeOffset > offset := by omega
    have h2 : ¬ cc.rangeLength + cc.rangeOffset > offset := by omega
    simp [shiftOffset, h1, h2]

/-- Witness for C2: the three cases of `c2_shiftOffset_cases` at
concrete inputs — an edit after the offset, a deletion covering the
offset (at its exact start), and an offset exactly at the end of the
replaced range. -/
theorem c2_shiftOffset_cases_witness :
    shiftOffset 5 ⟨7, 2, 3⟩ = some 5 ∧
    shiftOffset 3 ⟨3, 4, 1⟩ = none ∧
    shiftOffset 7 ⟨3, 4, 6⟩ = some 9 :=
  ⟨(c2_shiftOffset_cases 5 ⟨7, 2, 3⟩ (by decide)).1 (by decide),
   (c2_shiftOffset_cases 3 ⟨3, 4, 1⟩ (by decide)).2.1 (by decide),
   ((c2_shiftOffset_cases 7 ⟨3, 4, 6⟩ (by decide)).2.2 (by decide)).1⟩

/-- C3 (code bug): `onDocChange` is supposed to drop a tracked offset
only when `shiftOffset` invalidates it at some step, but the check
`if(!offset1)` also fires when the remapped offset is `0`, because `0`
is falsy in JavaScript. Failing input: tracked offset `10`, content
changes `delete [0,10)` followed by `insert 5 characters at 0`. The
per-edit pipeline yields `some 0` then `some 5` — never the
invalidation signal — and `5` re-normalizes to `5`, so the claim says
the offset remains tracked (at `5`); the code instead treats the
intermediate `0` as invalidated, skips the second change, and drops
the offset. -/
theorem c3_zero_offset_dropped :
    shiftOffset 10 ⟨0, 10, 0⟩ = some 0 ∧
    shiftOffset 0 ⟨0, 0, 5⟩ = some 5 ∧
    normC3 5 = 5 ∧
    onDocChangeOffsets normC3 [10] [⟨0, 10, 0⟩, ⟨0, 0, 5⟩] = [] := by
  decide

/-- C10: a document-change event for another document, or one with an
empty list of content changes, leaves the tracked offsets and the
presentation state unchanged and issues no slice request. -/
theorem c10_frame_effect (norm : Int → Int)
    (retrieve : List Int → SliceResponse) (selfDoc : Nat)
    (offsets : List Int) (view : SlicerView) (e : DocChangeEvent)
    (h : e.docId ≠ selfDoc ∨ e.contentChanges = []) :
    onDocChange norm retrieve selfDoc offsets view e =
      (offsets, view, false) := by
  rcases h with h | h
  · simp [onDocChange, h]
  · by_cases hd : e.docId ≠ selfDoc
    · simp [onDocChange, hd]
    · simp [onDocChange, hd, h]

/-- Witness for C10: a change event for document 2 observed by the
slicer of document 1 changes nothing. -/
theorem c10_frame_effect_witness :
    onDocChange (fun o => o) (fun _ => ⟨"", []⟩) 1 [3] ⟨none, none⟩
      ⟨2, [⟨0, 1, 1⟩]⟩ = ([3], ⟨none, none⟩, false) :=
  c10_frame_effect (fun o => o) (fun _ => ⟨"", []⟩) 1 [3] ⟨none, none⟩
    ⟨2, [⟨0, 1, 1⟩]⟩ (Or.inl (by decide))

/-- C1 (counterexample): responses `R1 = ⟨"slice one", [1]⟩` (from the
older request) and `R2 = ⟨"slice two", [2]⟩` (from the newer request)
for the same document arrive in the order `R2, R1`. The code applies
each response on arrival with no sequence-number comparison, so the
final rendered slice reflects `R1` — not `R2` as the claim states, and
`R1` is not discarded. -/
theorem c1_counterexample :
    (applyArrivals ⟨none, none⟩
        [⟨"slice two", [2]⟩, ⟨"slice one", [1]⟩]).content
      = some "slice one" ∧
    ("slice one" : String) ≠ "slice two" := by
  constructor
  · rfl
  · decide

/-- C1 (amended): the slice responses for a document are applied to the
presentation state in arrival order, with no sequence-number or
staleness check, so the final rendered slice reflects whichever
response arrives last — in particular, an older response arriving after
a newer one overwrites it rather than being discarded. -/
theorem c1_last_arrival_applies (view : SlicerView)
    (arrivals : List SliceResponse) (r : SliceResponse) :
    applyArrivals view (arrivals ++ [r]) = applyResponse view r := by
  unfold applyArrivals
  rw [List.foldl_append]
  rfl

/-- C8: a slice update with an empty tracked-position set clears the
slice decorations and sends no request to the backend, rendering the
fallback text; and a response whose relevant-element set is empty
clears the decorations and renders the fallback "no slice" text
instead of stale content. -/
theorem c8_empty_cases (retrieve : List Int → SliceResponse)
    (offsets : List Int) :
    (offsets = [] →
      updateOutputRun retrieve offsets
        = (⟨none, some "# No slice"⟩, false)) ∧
    (offsets ≠ [] → (retrieve offsets).sliceElements = [] →
      updateOutputRun retrieve offsets
        = (⟨none, some "# No slice"⟩, true)) := by
  constructor
  · intro h
    subst h
    simp [updateOutputRun, updateSlicesRun, jsOrDefault]
  · intro h he
    have hlen : ¬ offsets.length = 0 := by
      simpa [List.length_eq_zero] using h
    simp [updateOutputRun, updateSlicesRun, hlen, he, jsOrDefault]

/-- Witness for C8: a session that answers with an empty element set,
once queried with no tracked positions and once with position 7. -/
theorem c8_empty_cases_witness :
    updateOutputRun (fun _ => ⟨"x", []⟩) []
      = (⟨none, some "# No slice"⟩, false) ∧
    updateOutputRun (fun _ => ⟨"x", []⟩) [7]
      = (⟨none, some "# No slice"⟩, true) :=
  ⟨(c8_empty_cases (fun _ => ⟨"x", []⟩) []).1 rfl,
   (c8_empty_cases (fun _ => ⟨"x", []⟩) [7]).2 (by decide) rfl⟩

/-- C9: establishing an internal or server session first destroys any
existing session and then stores the newly created one (so at most one
session is live at a time); `destroySession` is idempotent, always
leaves the reference cleared, and is safe when no session exists — in
that case it applies `destroy` to nothing and changes no state. -/
theorem c9_session_lifecycle (s : FlowrSessionState) (id : Nat)
    (k : SessionKind) :
    (s.flowrSession = some (id, k) →
      id ∈ (establishInternalSession s).destroyCalls ∧
      (establishInternalSession s).flowrSession
        = some (s.nextId, SessionKind.internal) ∧
      id ∈ (establishServerSession s).destroyCalls ∧
      (establishServerSession s).flowrSession
        = some (s.nextId, SessionKind.server)) ∧
    destroySession (destroySession s) = destroySession s ∧
    (destroySession s).flowrSession = none ∧
    (s.flowrSession = none →
      destroySession s = s ∧
      (destroySession s).destroyCalls = s.destroyCalls) := by
  obtain ⟨fs, ni, dc⟩ := s
  cases fs with
  | none =>
    refine ⟨?_, ?_, ?_, ?_⟩
    · intro h
      simp at h
    · simp [destroySession]
    · simp [destroySession]
    · intro _
      simp [destroySession]
  | some p =>
    obtain ⟨id', k'⟩ := p
    refine ⟨?_, ?_, ?_, ?_⟩
    · intro h
      simp only [Option.some.injEq, Prod.mk.injEq] at h
      obtain ⟨rfl, rfl⟩ := h
      refine ⟨?_, ?_, ?_, ?_⟩
      · simp [establishInternalSession, destroySession]
      · simp [establishInternalSession, destroySession]
      · simp [establishServerSession, destroySession]
      · simp [establishServerSession, destroySession]
    · simp [destroySession]
    · simp [destroySession]
    · intro h
      simp at h

/-- Witness for C9: a state holding session 0 (internal kind) and a
state holding no session. -/
theorem c9_session_lifecycle_witness :
    0 ∈ (establishServerSession
        ⟨some (0, SessionKind.internal), 1, []⟩).destroyCalls ∧
    destroySession ⟨none, 1, []⟩ = ⟨none, 1, []⟩ :=
  ⟨((c9_session_lifecycle ⟨some (0, SessionKind.internal), 1, []⟩ 0
      SessionKind.internal).1 rfl).2.2.1,
   ((c9_session_lifecycle ⟨none, 1, []⟩ 0
      SessionKind.internal).2.2.2 rfl).1⟩

/-- C4: for a call to `togglePositions` whose positions normalize to a
non-empty offset set: if every normalized offset is already tracked,
all of them are removed (bulk toggle-off, the new tracked list is the
old one with the offsets filtered out); otherwise every offset ends up
tracked and every previously tracked offset is kept, and nothing
outside the old tracked set and the toggled offsets appears (bulk
toggle-on, never a mixed partial result); and the call returns `true`,
which matches the fact that the tracked set actually changed. -/
theorem c4_togglePositions_bulk (norm : Int → Int)
    (tracked positions : List Int)
    (hne : normOffsets norm positions ≠ []) :
    ((∀ o ∈ normOffsets norm positions, o ∈ tracked) →
      (togglePositions norm tracked positions).1
        = tracked.filter (fun o => o ∉ normOffsets norm positions) ∧
      ∀ o ∈ normOffsets norm positions,
        o ∉ (togglePositions norm tracked positions).1) ∧
    ((¬ ∀ o ∈ normOffsets norm positions, o ∈ tracked) →
      (∀ o ∈ normOffsets norm positions,
        o ∈ (togglePositions norm tracked positions).1) ∧
      (∀ t ∈ tracked, t ∈ (togglePositions norm tracked positions).1) ∧
      (∀ x ∈ (togglePositions norm tracked positions).1,
        x ∈ tracked ∨ x ∈ normOffsets norm positions)) ∧
    ((togglePositions norm tracked positions).2 = true ∧
      ¬ ∀ x : Int,
        (x ∈ (togglePositions norm tracked positions).1 ↔ x ∈ tracked)) := by
  refine ⟨?_, ?_, ?_⟩
  · intro hall
    rw [togglePositions_eq_all norm tracked positions hne hall]
    refine ⟨rfl, ?_⟩
    intro o ho hmem
    simp only [List.mem_filter, decide_eq_true_eq] at hmem
    exact hmem.2 ho
  · intro hnall
    rw [togglePositions_eq_notall norm tracked positions hnall]
    refine ⟨?_, ?_, ?_⟩
    · intro o ho
      exact (toggleLoop_mem _ _ _ o).mpr (Or.inr ho)
    · intro t ht
      exact (toggleLoop_mem _ _ _ t).mpr (Or.inl ht)
    · intro x hx
      exact (toggleLoop_mem _ _ _ x).mp hx
  · obtain ⟨o0, ho0⟩ := List.exists_mem_of_ne_nil _ hne
    by_cases hall : ∀ o ∈ normOffsets norm positions, o ∈ tracked
    · rw [togglePositions_eq_all norm tracked positions hne hall]
      refine ⟨rfl, ?_⟩
      intro hiff
      have h2 := (hiff o0).mpr (hall o0 ho0)
      simp only [List.mem_filter, decide_eq_true_eq] at h2
      exact h2.2 ho0
    · rw [togglePositions_eq_notall norm tracked positions hall]
      refine ⟨rfl, ?_⟩
      intro hiff
      push_neg at hall
      obtain ⟨o, ho, hno⟩ := hall
      exact hno ((hiff o).mp ((toggleLoop_mem _ _ _ o).mpr (Or.inr ho)))

/-- Witness for C4: tracked `[1, 2]`, toggled positions normalizing to
`[2]` — every offset already tracked, so the call filters them all out
and reports a change. -/
theorem c4_togglePositions_bulk_witness :
    (togglePositions (fun o => o) [1, 2] [2]).1
      = ([1, 2] : List Int).filter
          (fun o => o ∉ normOffsets (fun o => o) [2]) ∧
    (togglePositions (fun o => o) [1, 2] [2]).2 = true :=
  ⟨((c4_togglePositions_bulk (fun o => o) [1, 2] [2] (by decide)).1
      (by decide)).1,
   (c4_togglePositions_bulk (fun o => o) [1, 2] [2] (by decide)).2.2.1⟩

/-- C5 (counterexample): prior tracked set `[5]`, positions normalizing
to `[5, 7]` (a mix of a tracked and an untracked offset). The first
toggle adds `7` (bulk add), the second removes both `5` and `7`, so
after two toggles the tracked set is empty — `5` was tracked before the
first call but is no longer tracked, refuting "calling
togglePositions(P) twice leaves the tracked offset set equal to the set
before the first call". -/
theorem c5_counterexample :
    (togglePositions (fun o => o) [5] [5, 7]).1 = [5, 7] ∧
    (togglePositions (fun o => o)
        (togglePositions (fun o => o) [5] [5, 7]).1 [5, 7]).1 = [] ∧
    (5 : Int) ∈ ([5] : List Int) ∧
    (5 : Int) ∉ (togglePositions (fun o => o)
        (togglePositions (fun o => o) [5] [5, 7]).1 [5, 7]).1 := by
  decide

/-- C5 (amended): toggling the same positions twice in immediate
succession restores the original tracked set provided the normalized
offsets are either all already tracked or all untracked; in the mixed
case the pair of calls instead removes the overlap (see the
counterexample). -/
theorem c5_double_toggle_restores (norm : Int → Int)
    (tracked positions : List Int)
    (hne : normOffsets norm positions ≠ [])
    (hcase : (∀ o ∈ normOffsets norm positions, o ∈ tracked) ∨
             (∀ o ∈ normOffsets norm positions, o ∉ tracked)) :
    ∀ x : Int,
      (x ∈ (togglePositions norm
          (togglePositions norm tracked positions).1 positions).1 ↔
        x ∈ tracked) := by
  obtain ⟨o0, ho0⟩ := List.exists_mem_of_ne_nil _ hne
  rcases hcase with hall | hdisj
  · rw [togglePositions_eq_all norm tracked positions hne hall]
    have hnall2 : ¬ ∀ o ∈ normOffsets norm positions,
        o ∈ tracked.filter (fun o => o ∉ normOffsets norm positions) := by
      intro hcon
      have h2 := hcon o0 ho0
      simp only [List.mem_filter, decide_eq_true_eq] at h2
      exact h2.2 ho0
    rw [show ((tracked.filter
          (fun o => o ∉ normOffsets norm positions), true)).1
        = tracked.filter (fun o => o ∉ normOffsets norm positions)
      from rfl]
    rw [togglePositions_eq_notall norm _ positions hnall2]
    intro x
    rw [show ((toggleLoop (normOffsets norm positions)
          (tracked.filter (fun o => o ∉ normOffsets norm positions))
          true).1, true).1
        = (toggleLoop (normOffsets norm positions)
          (tracked.filter (fun o => o ∉ normOffsets norm positions))
          true).1 from rfl]
    rw [toggleLoop_mem]
    simp only [List.mem_filter, decide_eq_true_eq]
    constructor
    · rintro (⟨hx, _⟩ | hx)
      · exact hx
      · exact hall x hx
    · intro hx
      by_cases hxo : x ∈ normOffsets norm positions
      · exact Or.inr hxo
      · exact Or.inl ⟨hx, hxo⟩
  · have hnall1 : ¬ ∀ o ∈ normOffsets norm positions, o ∈ tracked := by
      intro hcon
      exact hdisj o0 ho0 (hcon o0 ho0)
    rw [togglePositions_eq_notall norm tracked positions hnall1]
    have hall2 : ∀ o ∈ normOffsets norm positions,
        o ∈ ((toggleLoop (normOffsets norm positions) tracked true).1,
            true).1 := by
      intro o ho
      exact (toggleLoop_mem _ _ _ o).mpr (Or.inr ho)
    rw [togglePositions_eq_all norm _ positions hne hall2]
    intro x
    simp only [List.mem_filter, decide_eq_true_eq, toggleLoop_mem]
    constructor
    · rintro ⟨hx | hx, hno⟩
      · exact hx
      · exact absurd hx hno
    · intro hx
      exact ⟨Or.inl hx, fun hxo => hdisj x hxo hx⟩

/-- Witness for C5: tracked `[5]`, positions normalizing to `[5]`
(all already tracked); the double toggle leaves `5` tracked. -/
theorem c5_double_toggle_restores_witness :
    ((5 : Int) ∈ (togglePositions (fun o => o)
        (togglePositions (fun o => o) [5] [5]).1 [5]).1 ↔
      (5 : Int) ∈ ([5] : List Int)) :=
  c5_double_toggle_restores (fun o => o) [5] [5] (by decide)
    (Or.inl (by decide)) 5

/-- C6 (counterexample): tracked offsets `[2, 5]` (duplicate-free, the
token starts of `ab` and `cd` in the document `"x ab cd"`); deleting
the single character at offset 4 (the space between `ab` and `cd`)
merges the two tokens into `abcd`. Offset 2 is untouched, offset 5
shifts to 4, and both re-normalize to the token start 2, so the
remapped tracked list is `[2, 2]` — `onDocChange` performs no
deduplication and the tracked collection now contains a duplicate. -/
theorem c6_counterexample :
    ([2, 5] : List Int).Nodup ∧
    onDocChangeOffsets normC6 [2, 5] [⟨4, 1, 0⟩] = [2, 2] ∧
    ¬ (onDocChangeOffsets normC6 [2, 5] [⟨4, 1, 0⟩]).Nodup := by
  decide

/-- C6 (amended): `togglePositions` preserves the no-duplicates
invariant of the tracked offsets (it skips already-present offsets),
but document-change remapping does not deduplicate: re-normalization
can map two shifted offsets to the same token start and leave duplicate
entries (see the counterexample). -/
theorem c6_toggle_preserves_nodup (norm : Int → Int)
    (tracked positions : List Int) (h : tracked.Nodup) :
    (togglePositions norm tracked positions).1.Nodup := by
  by_cases he : normOffsets norm positions = []
  · rw [togglePositions_eq_empty norm tracked positions he]
    exact h
  · by_cases hall : ∀ o ∈ normOffsets norm positions, o ∈ tracked
    · rw [togglePositions_eq_all norm tracked positions he hall]
      exact h.filter _
    · rw [togglePositions_eq_notall norm tracked positions hall]
      exact toggleLoop_nodup _ _ _ h

/-- Witness for C6: toggling position 7 on the duplicate-free tracked
list `[5]` keeps the tracked list duplicate-free. -/
theorem c6_toggle_preserves_nodup_witness :
    (togglePositions (fun o => o) [5] [7]).1.Nodup :=
  c6_toggle_preserves_nodup (fun o => o) [5] [7] (by decide)

/-- C7 (counterexample): the registry holds the slicer of document 1
with tracked offset `10`; a change deleting the whole document
invalidates the offset, so `onDocChange` leaves the slicer with an
empty offset list — but the slicer is not disposed and stays in the
map, refuting "the map never holds a tracker with an empty offset
set". -/
theorem c7_counterexample :
    lookupSlicer (docSlicersOnChange normC7 [(1, [10])]
      ⟨1, [⟨0, 20, 0⟩]⟩) 1 = some [] := by
  decide

/-- C7 (amended): when toggling positions through `addPositions` leaves
a tracker's offset set empty, the tracker is disposed and removed from
the document-to-tracker map, so `addPositions` never leaves a tracker
with an empty offset set in the map; document-change remapping,
however, can (see the counterexample). -/
theorem c7_addPositions_no_empty (norm : Int → Int) (m : DocSlicers)
    (doc : Nat) (positions : List Int)
    (hm : ∀ d offs, lookupSlicer m d = some offs → offs ≠ []) :
    ∀ d offs,
      lookupSlicer (addPositions norm m doc positions) d = some offs →
      offs ≠ [] := by
  intro d offs hlook
  rw [addPositions_lookup] at hlook
  by_cases hd : d = doc
  · rw [if_pos hd] at hlook
    by_cases hr : (togglePositions norm ((lookupSlicer m doc).getD [])
        positions).1.length = 0
    · rw [if_pos hr] at hlook
      exact absurd hlook (by simp)
    · rw [if_neg hr] at hlook
      obtain rfl := Option.some.inj hlook
      intro hnil
      exact hr (by rw [hnil]; rfl)
  · rw [if_neg hd] at hlook
    exact hm d offs hlook

/-- Witness for C7: starting from the empty registry (which trivially
holds no empty tracker), adding position 5 for document 1 yields a
registry whose entry for document 1 is `[5]`, which is non-empty. -/
theorem c7_addPositions_no_empty_witness : ([5] : List Int) ≠ [] :=
  c7_addPositions_no_empty (fun o => o) [] 1 [5]
    (fun d offs h => by simp [lookupSlicer] at h) 1 [5] (by decide)

end VscodeFlowr
